import Mathlib

/-!
A shallow embedding of `tkautobox.py`, the single source file of the
tkautobox repository.  The class `Autobox` builds a Tkinter form from a
list of field dictionaries and two wrapper functions `autobox` and
`loginbox` run it.  Purely visual calls (`grid`, fonts, geometry,
`mainloop`, `destroy`) have no effect on the result mapping and are not
modelled.  The tkinter variable classes `StringVar` and `BooleanVar` are
modelled by the value they hold; as in CPython tkinter, `BooleanVar.set`
converts its argument with Tcl boolean parsing and raises `TclError` when
the argument is not a valid boolean (in particular on the empty string),
and an unknown key in the `variable_types` dictionary raises `KeyError`.
Python dictionaries are modelled as association lists with unique keys in
insertion order.
-/

/-- Python scalar values that flow through the dialog: the strings held by
a `StringVar` and the booleans held by a `BooleanVar`. -/
inductive PyVal where
  | str (s : String)
  | bool (b : Bool)
  deriving DecidableEq, Repr

/-- The Python exceptions the embedded code can raise. -/
inductive PyError where
  | TclError
  | KeyError
  | TypeError
  deriving DecidableEq, Repr

/-- A tkinter variable object, identified with the value it holds. -/
inductive TkVar where
  | stringVar (s : String)
  | booleanVar (b : Bool)
  deriving DecidableEq, Repr

/-- The input widgets `Autobox.__init__` can construct (lines 89 to 96):
an `Entry` with an optional `show` masking string, a `Combobox` with its
`values` list and its `state` string, or a `Checkbutton`. -/
inductive Widget where
  | entry (show? : Option String)
  | combobox (values : Option (List String)) (state : String)
  | checkbutton
  deriving DecidableEq, Repr

/-- One field dictionary from the `fields` keyword argument.  Every key is
optional, as in the Python dictionaries (`field.get` is used throughout). -/
structure FieldSpec where
  name : Option String
  label : Option String
  type : Option String
  default : Option PyVal
  options : Option (List String)
  deriving DecidableEq, Repr

/-- Build a field dictionary; the arguments are, in order, the values of
the keys `name`, `label`, `type`, `default` and `options`. -/
def mkField (name label ty : Option String) (dflt : Option PyVal)
    (opts : Option (List String)) : FieldSpec :=
  ⟨name, label, ty, dflt, opts⟩

/-- A value passed as a keyword argument to `autobox` or `loginbox`.  Only
the shapes the wrappers actually inspect are modelled: strings and lists
of field dictionaries. -/
inductive PyArg where
  | str (s : String)
  | fieldList (fs : List FieldSpec)
  deriving DecidableEq, Repr

/-- A user interaction with one rendered widget, addressed by field name:
typing a string into an `Entry`, clicking a `Checkbutton`, or choosing the
entry at a given index from the dropdown of a read-only `Combobox`. -/
inductive Edit where
  | typeText (n : String) (s : String)
  | toggle (n : String)
  | pick (n : String) (i : Nat)
  deriving DecidableEq, Repr

/-- The four user gestures that end the dialog: the OK button, the Return
key (line 109), the Cancel button, and the Escape key (line 110). -/
inductive UserAction where
  | okButton
  | enterKey
  | cancelButton
  | escapeKey
  deriving DecidableEq, Repr

/-- Dictionary lookup on an association list: the value at the first
matching key, as `dict.get` returns it. -/
def dictLookup {α : Type} : List (String × α) → String → Option α
  | [], _ => none
  | p :: ps, k => if p.1 = k then some p.2 else dictLookup ps k

/-- Dictionary assignment `d[k] = v` on an association list with unique
keys: replace the value at an existing key in place, otherwise append the
new pair at the end (Python dictionaries keep insertion order). -/
def dictInsert {α : Type} : List (String × α) → String → α → List (String × α)
  | [], k, v => [(k, v)]
  | p :: ps, k, v => if p.1 = k then (k, v) :: ps else p :: dictInsert ps k v

/-- The keys of a dictionary, in insertion order. -/
def dictKeys {α : Type} (d : List (String × α)) : List String :=
  d.map Prod.fst

/-- Dictionary `pop`: remove the entry at the given key. -/
def kwPop (d : List (String × PyArg)) (k : String) : List (String × PyArg) :=
  d.filter (fun p => p.1 != k)

/-- Tcl boolean parsing of a string, as `Tcl_GetBoolean` performs it: the
digits 0 and 1, and any case-insensitive non-ambiguous prefix of the words
true, false, yes, no, on and off.  The empty string is not a boolean.
Lowercasing and prefix tests are written on the character lists so that
they evaluate by kernel reduction. -/
def tclGetBooleanStr (s : String) : Option Bool :=
  let t : List Char := s.data.map Char.toLower
  if t.isEmpty then none
  else if t = "1".data ∨ t.isPrefixOf "true".data ∨ t.isPrefixOf "yes".data ∨
      t = "on".data then some true
  else if t = "0".data ∨ t.isPrefixOf "false".data ∨ t.isPrefixOf "no".data ∨
      (t.isPrefixOf "off".data ∧ t ≠ "o".data) then some false
  else none

/-- Tcl boolean conversion of a Python value, as `Tk.getboolean` performs
it: booleans pass through, strings are parsed. -/
def tclGetBoolean : PyVal → Option Bool
  | PyVal.bool b => some b
  | PyVal.str s => tclGetBooleanStr s

/-- The Tcl string representation of a Python value, which is what a
`StringVar` stores and returns. -/
def pyValToTclString : PyVal → String
  | PyVal.str s => s
  | PyVal.bool b => if b then "1" else "0"

/-- Line 22: the class attribute `variable_types`, mapping field type
names to tkinter variable classes. -/
def variable_types : List (String × Bool) :=
  [("text", false), ("hidden_text", false), ("checkbox", true), ("select", false)]

/-- Truthiness of `field.get("name")` (line 68): the key is present and
its value is a non-empty string. -/
def FieldSpec.hasName (f : FieldSpec) : Bool :=
  f.name.getD "" != ""

/-- Line 68: `self.fields = [x for x in self.fields if x.get("name")]`. -/
def retainFields (fields : List FieldSpec) : List FieldSpec :=
  fields.filter (fun f => f.hasName)

/-- Lines 73 to 74: construct the tkinter variable for one retained field
and seed it with `field.get("default", "")`.  A type name missing from
`variable_types` raises `KeyError`; setting a `BooleanVar` to a value that
is not a valid Tcl boolean raises `TclError`.  The boolean returned by the
`variable_types` lookup is true exactly for the `BooleanVar` class. -/
def seedVar (f : FieldSpec) : Except PyError TkVar :=
  match dictLookup variable_types (f.type.getD "text") with
  | none => Except.error PyError.KeyError
  | some false =>
      Except.ok (TkVar.stringVar (pyValToTclString (f.default.getD (PyVal.str ""))))
  | some true =>
      match tclGetBoolean (f.default.getD (PyVal.str "")) with
      | some b => Except.ok (TkVar.booleanVar b)
      | none => Except.error PyError.TclError

/-- The loop of lines 71 to 74 over the retained fields, threading the
dictionary `self.data`; the first exception aborts construction. -/
def buildDataLoop : List FieldSpec → List (String × TkVar) →
    Except PyError (List (String × TkVar))
  | [], d => Except.ok d
  | f :: fs, d =>
      match seedVar f with
      | Except.error e => Except.error e
      | Except.ok v => buildDataLoop fs (dictInsert d (f.name.getD "") v)

/-- Lines 68 to 74: the dictionary `self.data` after `Autobox.__init__`
has filtered the fields and created and seeded every variable. -/
def buildData (fields : List FieldSpec) : Except PyError (List (String × TkVar)) :=
  buildDataLoop (retainFields fields) []

/-- Lines 89 to 96: the input widget constructed for one retained field,
dispatching on `field.get("type", "text")`; every type other than select,
checkbox and hidden_text falls through to a plain `Entry`. -/
def widgetFor (f : FieldSpec) : Widget :=
  let ft := f.type.getD "text"
  if ft = "select" then Widget.combobox f.options "readonly"
  else if ft = "checkbox" then Widget.checkbutton
  else if ft = "hidden_text" then Widget.entry (some "*")
  else Widget.entry none

/-- The loop of lines 83 to 98 over the retained fields, threading the
dictionary `self.widgets`. -/
def buildWidgetsLoop : List FieldSpec → List (String × Widget) →
    List (String × Widget)
  | [], d => d
  | f :: fs, d => buildWidgetsLoop fs (dictInsert d (f.name.getD "") (widgetFor f))

/-- The dictionary `self.widgets` after `Autobox.__init__`. -/
def buildWidgets (fields : List FieldSpec) : List (String × Widget) :=
  buildWidgetsLoop (retainFields fields) []

/-- The value a variable reports: `StringVar.get` returns the string,
`BooleanVar.get` returns the boolean. -/
def varGet : TkVar → PyVal
  | TkVar.stringVar s => PyVal.str s
  | TkVar.booleanVar b => PyVal.bool b

/-- Lines 112 to 114: `ok_clicked` replaces `self.data` with the plain
mapping from each key to the value of its variable. -/
def ok_clicked (d : List (String × TkVar)) : List (String × PyVal) :=
  d.map (fun p => (p.1, varGet p.2))

/-- Lines 116 to 118: `cancel_clicked` replaces `self.data` with the
empty dictionary, whatever it held. -/
def cancel_clicked (_d : List (String × TkVar)) : List (String × PyVal) :=
  []

/-- Lines 103 to 110: the OK button and the Return key both run
`ok_clicked`; the Cancel button and the Escape key both run
`cancel_clicked`. -/
def actionHandler : UserAction → List (String × TkVar) → List (String × PyVal)
  | UserAction.okButton, d => ok_clicked d
  | UserAction.enterKey, d => ok_clicked d
  | UserAction.cancelButton, d => cancel_clicked d
  | UserAction.escapeKey, d => cancel_clicked d

/-- Apply one user edit to the variable dictionary, mediated by the
rendered widget bound to the named variable: typing reaches a field only
through an `Entry` (a read-only `Combobox` rejects typed input), clicking
toggles a `Checkbutton` and negates its `BooleanVar`, and picking chooses
one of the `values` of a `Combobox`.  Edits addressing a missing widget,
or a widget of the wrong sort, change nothing. -/
def applyEdit (ws : List (String × Widget)) (d : List (String × TkVar)) :
    Edit → List (String × TkVar)
  | Edit.typeText n s =>
      match dictLookup ws n, dictLookup d n with
      | some (Widget.entry _), some (TkVar.stringVar _) =>
          dictInsert d n (TkVar.stringVar s)
      | _, _ => d
  | Edit.toggle n =>
      match dictLookup ws n, dictLookup d n with
      | some Widget.checkbutton, some (TkVar.booleanVar b) =>
          dictInsert d n (TkVar.booleanVar (!b))
      | _, _ => d
  | Edit.pick n i =>
      match dictLookup ws n, dictLookup d n with
      | some (Widget.combobox (some opts) _), some (TkVar.stringVar _) =>
          match opts[i]? with
          | some o => dictInsert d n (TkVar.stringVar o)
          | none => d
      | _, _ => d

/-- One full dialog lifetime: construct the variables and widgets (the
construction exceptions of `Autobox.__init__` propagate), let the user
perform a sequence of edits, and end the dialog with one terminal gesture,
returning the final `self.data`. -/
def runDialog (fields : List FieldSpec) (edits : List Edit) (a : UserAction) :
    Except PyError (List (String × PyVal)) :=
  match buildData fields with
  | Except.error e => Except.error e
  | Except.ok d0 =>
      Except.ok (actionHandler a (edits.foldl (applyEdit (buildWidgets fields)) d0))

/-- Lines 54 to 56: the theme actually in effect after `__init__` ran,
given the set of theme names the toolkit knows and the theme in effect
before.  The requested theme is `None` when the keyword is absent. -/
def applyTheme (themeNames : List String) (current : String)
    (theme : Option String) : String :=
  match theme with
  | some t => if t ∈ themeNames then t else current
  | none => current

/-- The field list `Autobox.__init__` reads from the keyword dictionary:
`kwargs.get("fields", [])` (line 48). -/
def kwFields (kwargs : List (String × PyArg)) : List FieldSpec :=
  match dictLookup kwargs "fields" with
  | some (PyArg.fieldList fs) => fs
  | _ => []

/-- Lines 120 to 125: `autobox` constructs the dialog from its keyword
dictionary, runs it, and returns the final data. -/
def autobox (kwargs : List (String × PyArg)) (edits : List Edit)
    (a : UserAction) : Except PyError (List (String × PyVal)) :=
  runDialog (kwFields kwargs) edits a

/-- Line 139: the username field that `loginbox` prepends. -/
def usernameSpec (default_username : String) : FieldSpec :=
  ⟨some "username", some "Username: ", some "text",
    some (PyVal.str default_username), none⟩

/-- Line 140: the password field that `loginbox` prepends. -/
def passwordSpec : FieldSpec :=
  ⟨some "password", some "Password: ", some "hidden_text", none, none⟩

/-- Binding the keyword arguments of a Python call of the shape
`f(k1=v1, ..., **rest)`: if any explicitly named keyword also occurs in
`rest`, the call raises `TypeError` (got multiple values for a keyword
argument); otherwise the callee sees the union. -/
def callKeywords (explicitKw rest : List (String × PyArg)) :
    Except PyError (List (String × PyArg)) :=
  if explicitKw.any (fun p => (dictLookup rest p.1).isSome) then
    Except.error PyError.TypeError
  else
    Except.ok (explicitKw ++ rest)

/-- Line 133: the idiom
`kwargs.get("additional_fields") and kwargs.pop("additional_fields") or []`;
the key is popped only when its value is truthy, and a falsy value gives
the empty list.  Returns the field list and the remaining dictionary. -/
def popAdditionalFields (kwargs : List (String × PyArg)) :
    List FieldSpec × List (String × PyArg) :=
  match dictLookup kwargs "additional_fields" with
  | some (PyArg.fieldList fs) =>
      if fs.isEmpty then ([], kwargs) else (fs, kwPop kwargs "additional_fields")
  | _ => ([], kwargs)

/-- Line 135: the same `get and pop or` idiom for `default_username`,
whose falsy fallback is the empty string. -/
def popDefaultUsername (kw : List (String × PyArg)) :
    String × List (String × PyArg) :=
  match dictLookup kw "default_username" with
  | some (PyArg.str s) =>
      if s = "" then ("", kw) else (s, kwPop kw "default_username")
  | _ => ("", kw)

/-- Lines 127 to 144: the keyword dictionary `loginbox` hands to
`autobox`, or the `TypeError` the call raises.  `additional_fields` and
`default_username` are popped only when truthy; `ok_label` and `title`
are read with `get` and stay in the dictionary that is splatted into the
call. -/
def loginboxCall (kwargs : List (String × PyArg)) :
    Except PyError (List (String × PyArg)) :=
  let p1 := popAdditionalFields kwargs
  let additional_fields := p1.1
  let kw1 := p1.2
  let ok_label : String :=
    match dictLookup kw1 "ok_label" with
    | some (PyArg.str s) => s
    | _ => "Log In"
  let p2 := popDefaultUsername kw1
  let default_username := p2.1
  let kw2 := p2.2
  let title : String :=
    match dictLookup kw2 "title" with
    | some (PyArg.str s) => s
    | _ => "Log In"
  let fields : List FieldSpec :=
    [usernameSpec default_username, passwordSpec] ++ additional_fields
  callKeywords
    [("fields", PyArg.fieldList fields), ("ok_label", PyArg.str ok_label),
      ("title_string", PyArg.str title)] kw2

/-- Lines 127 to 144: `loginbox` builds the argument dictionary and
delegates to `autobox`; a keyword collision raises before the dialog is
ever built. -/
def loginbox (kwargs : List (String × PyArg)) (edits : List Edit)
    (a : UserAction) : Except PyError (List (String × PyVal)) :=
  match loginboxCall kwargs with
  | Except.error e => Except.error e
  | Except.ok kw => autobox kw edits a

/-- The property claimed of committed results: every retained select field
maps, in the result, to a string drawn from its `options` list. -/
def selectValuesInOptions (fields : List FieldSpec)
    (result : List (String × PyVal)) : Prop :=
  ∀ f ∈ retainFields fields, f.type = some "select" →
    ∀ s, dictLookup result (f.name.getD "") = some (PyVal.str s) →
      s ∈ f.options.getD []

/-! Dictionary lemmas. -/

theorem dictLookup_insert_self {α : Type} (d : List (String × α)) (k : String)
    (v : α) : dictLookup (dictInsert d k v) k = some v := by
  induction d with
  | nil => simp [dictInsert, dictLookup]
  | cons p ps ih =>
    by_cases hp : p.1 = k
    · simp [dictInsert, hp, dictLookup]
    · simp [dictInsert, hp, dictLookup, ih]

theorem dictLookup_insert_ne {α : Type} (d : List (String × α)) (k k' : String)
    (v : α) (h : k' ≠ k) :
    dictLookup (dictInsert d k v) k' = dictLookup d k' := by
  induction d with
  | nil => simp [dictInsert, dictLookup, Ne.symm h]
  | cons p ps ih =>
    by_cases hp : p.1 = k
    · simp [dictInsert, hp, dictLookup, Ne.symm h]
    · simp [dictInsert, hp, dictLookup, ih]

theorem mem_dictKeys_insert {α : Type} (d : List (String × α)) (k k' : String)
    (v : α) : k' ∈ dictKeys (dictInsert d k v) ↔ k' = k ∨ k' ∈ dictKeys d := by
  induction d with
  | nil => simp [dictInsert, dictKeys]
  | cons p ps ih =>
    by_cases hp : p.1 = k
    · subst hp
      simp [dictInsert, dictKeys]
    · simp [dictInsert, hp, dictKeys] at ih ⊢
      tauto

theorem dictKeys_insert_mem {α : Type} (d : List (String × α)) (k : String)
    (v : α) (h : k ∈ dictKeys d) :
    dictKeys (dictInsert d k v) = dictKeys d := by
  induction d with
  | nil => simp [dictKeys] at h
  | cons p ps ih =>
    by_cases hp : p.1 = k
    · simp [dictInsert, hp, dictKeys]
    · have h' : k ∈ dictKeys ps := by
        rcases (by simpa [dictKeys] using h : k = p.1 ∨ k ∈ dictKeys ps) with h1 | h2
        · exact absurd h1.symm hp
        · exact h2
      have hrec := ih h'
      simp only [dictKeys] at hrec
      simp [dictInsert, hp, dictKeys, hrec]

theorem mem_dictKeys_of_lookup {α : Type} (d : List (String × α)) (k : String)
    (v : α) (h : dictLookup d k = some v) : k ∈ dictKeys d := by
  induction d with
  | nil => simp [dictLookup] at h
  | cons p ps ih =>
    by_cases hp : p.1 = k
    · simp [dictKeys, hp]
    · simp [dictLookup, hp] at h
      exact List.mem_cons_of_mem _ (ih h)

theorem dictLookup_map {α β : Type} (g : α → β) (d : List (String × α))
    (k : String) :
    dictLookup (d.map (fun p => (p.1, g p.2))) k = (dictLookup d k).map g := by
  induction d with
  | nil => simp [dictLookup]
  | cons p ps ih => by_cases hp : p.1 = k <;> simp [dictLookup, hp, ih]

theorem dictKeys_map {α β : Type} (g : α → β) (d : List (String × α)) :
    dictKeys (d.map (fun p => (p.1, g p.2))) = dictKeys d := by
  induction d with
  | nil => rfl
  | cons p ps ih =>
    simp only [dictKeys] at ih
    simp [dictKeys, ih]

theorem dictLookup_kwPop_ne (d : List (String × PyArg)) (k k' : String)
    (h : k' ≠ k) : dictLookup (kwPop d k) k' = dictLookup d k' := by
  induction d with
  | nil => rfl
  | cons p ps ih =>
    by_cases hp : p.1 = k
    · have hp' : ¬p.1 = k' := fun hh => h (by rw [← hh, hp])
      simp only [kwPop, List.filter_cons] at ih ⊢
      simp [hp, hp', dictLookup, ih, Ne.symm h]
    · by_cases hk' : p.1 = k'
      · simp only [kwPop, List.filter_cons]
        simp [hp, hk', dictLookup, h]
      · simp only [kwPop, List.filter_cons] at ih ⊢
        simp [hp, hk', dictLookup, ih]

/-! Lemmas about the construction loops of `Autobox.__init__`. -/

theorem buildDataLoop_keys (fs : List FieldSpec) (d d' : List (String × TkVar))
    (h : buildDataLoop fs d = Except.ok d') (k : String) :
    k ∈ dictKeys d' ↔ k ∈ dictKeys d ∨ ∃ f ∈ fs, f.name.getD "" = k := by
  induction fs generalizing d with
  | nil =>
    simp only [buildDataLoop, Except.ok.injEq] at h
    subst h
    simp
  | cons f fs ih =>
    simp only [buildDataLoop] at h
    cases hs : seedVar f with
    | error e => rw [hs] at h; simp at h
    | ok v =>
      rw [hs] at h
      rw [ih _ h, mem_dictKeys_insert]
      simp only [List.exists_mem_cons_iff]
      tauto

theorem buildDataLoop_lookup_pres (fs : List FieldSpec)
    (d d' : List (String × TkVar)) (k : String)
    (hk : ∀ g ∈ fs, g.name.getD "" ≠ k)
    (h : buildDataLoop fs d = Except.ok d') :
    dictLookup d' k = dictLookup d k := by
  induction fs generalizing d with
  | nil =>
    simp only [buildDataLoop, Except.ok.injEq] at h
    subst h
    rfl
  | cons f fs ih =>
    simp only [buildDataLoop] at h
    cases hs : seedVar f with
    | error e => rw [hs] at h; simp at h
    | ok v =>
      rw [hs] at h
      rw [ih _ (fun g hg => hk g (List.mem_cons_of_mem f hg)) h]
      exact dictLookup_insert_ne d _ k v (Ne.symm (hk f (List.mem_cons_self f fs)))

theorem buildDataLoop_lookup_last (fs₁ : List FieldSpec) (f : FieldSpec)
    (fs₂ : List FieldSpec) (d d' : List (String × TkVar)) (k : String)
    (hk : f.name.getD "" = k) (h₂ : ∀ g ∈ fs₂, g.name.getD "" ≠ k)
    (h : buildDataLoop (fs₁ ++ f :: fs₂) d = Except.ok d') :
    ∃ v, seedVar f = Except.ok v ∧ dictLookup d' k = some v := by
  induction fs₁ generalizing d with
  | nil =>
    simp only [List.nil_append, buildDataLoop] at h
    cases hs : seedVar f with
    | error e => rw [hs] at h; simp at h
    | ok v =>
      rw [hs] at h
      refine ⟨v, rfl, ?_⟩
      rw [buildDataLoop_lookup_pres fs₂ _ d' k h₂ h, hk, dictLookup_insert_self]
  | cons g fs₁ ih =>
    simp only [List.cons_append, buildDataLoop] at h
    cases hs : seedVar g with
    | error e => rw [hs] at h; simp at h
    | ok v =>
      rw [hs] at h
      exact ih _ h

theorem buildWidgetsLoop_keys (fs : List FieldSpec)
    (d : List (String × Widget)) (k : String) :
    k ∈ dictKeys (buildWidgetsLoop fs d) ↔
      k ∈ dictKeys d ∨ ∃ f ∈ fs, f.name.getD "" = k := by
  induction fs generalizing d with
  | nil => simp [buildWidgetsLoop]
  | cons f fs ih =>
    simp only [buildWidgetsLoop]
    rw [ih, mem_dictKeys_insert]
    simp only [List.exists_mem_cons_iff]
    tauto

theorem buildWidgetsLoop_lookup_pres (fs : List FieldSpec)
    (d : List (String × Widget)) (k : String)
    (hk : ∀ g ∈ fs, g.name.getD "" ≠ k) :
    dictLookup (buildWidgetsLoop fs d) k = dictLookup d k := by
  induction fs generalizing d with
  | nil => rfl
  | cons f fs ih =>
    simp only [buildWidgetsLoop]
    rw [ih _ (fun g hg => hk g (List.mem_cons_of_mem f hg))]
    exact dictLookup_insert_ne d _ k _ (Ne.symm (hk f (List.mem_cons_self f fs)))

theorem buildWidgetsLoop_lookup_last (fs₁ : List FieldSpec) (f : FieldSpec)
    (fs₂ : List FieldSpec) (d : List (String × Widget)) (k : String)
    (hk : f.name.getD "" = k) (h₂ : ∀ g ∈ fs₂, g.name.getD "" ≠ k) :
    dictLookup (buildWidgetsLoop (fs₁ ++ f :: fs₂) d) k = some (widgetFor f) := by
  induction fs₁ generalizing d with
  | nil =>
    simp only [List.nil_append, buildWidgetsLoop]
    rw [buildWidgetsLoop_lookup_pres fs₂ _ k h₂, hk, dictLookup_insert_self]
  | cons g fs₁ ih =>
    simp only [List.cons_append, buildWidgetsLoop]
    exact ih _

/-! Lemmas about user edits and the terminal callbacks. -/

/-- The field name a user edit addresses. -/
def editName : Edit → String
  | Edit.typeText n _ => n
  | Edit.toggle n => n
  | Edit.pick n _ => n

theorem applyEdit_lookup_ne (ws : List (String × Widget))
    (d : List (String × TkVar)) (e : Edit) (k : String)
    (h : editName e ≠ k) :
    dictLookup (applyEdit ws d e) k = dictLookup d k := by
  cases e with
  | typeText n s =>
    cases hw : dictLookup ws n with
    | none => simp [applyEdit, hw]
    | some w =>
      cases hd : dictLookup d n with
      | none => cases w <;> simp [applyEdit, hw, hd]
      | some v =>
        cases w <;> cases v <;> simp [applyEdit, hw, hd]
        exact dictLookup_insert_ne d n k _ (Ne.symm h)
  | toggle n =>
    cases hw : dictLookup ws n with
    | none => simp [applyEdit, hw]
    | some w =>
      cases hd : dictLookup d n with
      | none => cases w <;> simp [applyEdit, hw, hd]
      | some v =>
        cases w <;> cases v <;> simp [applyEdit, hw, hd]
        exact dictLookup_insert_ne d n k _ (Ne.symm h)
  | pick n i =>
    cases hw : dictLookup ws n with
    | none => simp [applyEdit, hw]
    | some w =>
      cases hd : dictLookup d n with
      | none => cases w <;> simp [applyEdit, hw, hd]
      | some v =>
        cases w with
        | entry sh => simp [applyEdit, hw, hd]
        | checkbutton => simp [applyEdit, hw, hd]
        | combobox vs st =>
          cases vs with
          | none => simp [applyEdit, hw, hd]
          | some opts =>
            cases v with
            | booleanVar b => simp [applyEdit, hw, hd]
            | stringVar s =>
              cases ho : opts[i]? with
              | none => simp only [applyEdit, hw, hd, ho]
              | some o =>
                simp only [applyEdit, hw, hd, ho]
                exact dictLookup_insert_ne d n k _ (Ne.symm h)

theorem applyEdit_keys (ws : List (String × Widget)) (d : List (String × TkVar))
    (e : Edit) : dictKeys (applyEdit ws d e) = dictKeys d := by
  have hins : ∀ (n : String) (v w : TkVar), dictLookup d n = some w →
      dictKeys (dictInsert d n v) = dictKeys d := fun n v w hw =>
    dictKeys_insert_mem d n v (mem_dictKeys_of_lookup d n w hw)
  cases e with
  | typeText n s =>
    cases hw : dictLookup ws n with
    | none => simp [applyEdit, hw]
    | some w =>
      cases hd : dictLookup d n with
      | none => cases w <;> simp [applyEdit, hw, hd]
      | some v =>
        cases w <;> cases v <;> simp [applyEdit, hw, hd]
        exact hins n _ _ hd
  | toggle n =>
    cases hw : dictLookup ws n with
    | none => simp [applyEdit, hw]
    | some w =>
      cases hd : dictLookup d n with
      | none => cases w <;> simp [applyEdit, hw, hd]
      | some v =>
        cases w <;> cases v <;> simp [applyEdit, hw, hd]
        exact hins n _ _ hd
  | pick n i =>
    cases hw : dictLookup ws n with
    | none => simp [applyEdit, hw]
    | some w =>
      cases hd : dictLookup d n with
      | none => cases w <;> simp [applyEdit, hw, hd]
      | some v =>
        cases w with
        | entry sh => simp [applyEdit, hw, hd]
        | checkbutton => simp [applyEdit, hw, hd]
        | combobox vs st =>
          cases vs with
          | none => simp [applyEdit, hw, hd]
          | some opts =>
            cases v with
            | booleanVar b => simp [applyEdit, hw, hd]
            | stringVar s =>
              cases ho : opts[i]? with
              | none => simp only [applyEdit, hw, hd, ho]
              | some o =>
                simp only [applyEdit, hw, hd, ho]
                exact hins n _ _ hd

theorem editsFold_keys (ws : List (String × Widget)) (edits : List Edit)
    (d : List (String × TkVar)) :
    dictKeys (edits.foldl (applyEdit ws) d) = dictKeys d := by
  induction edits generalizing d with
  | nil => rfl
  | cons e es ih =>
    rw [List.foldl_cons, ih, applyEdit_keys]

theorem applyEdit_boolCell (ws : List (String × Widget))
    (d : List (String × TkVar)) (e : Edit) (k : String)
    (hw : dictLookup ws k = some Widget.checkbutton)
    (h : ∃ b, dictLookup d k = some (TkVar.booleanVar b)) :
    ∃ b, dictLookup (applyEdit ws d e) k = some (TkVar.booleanVar b) := by
  obtain ⟨b, hb⟩ := h
  by_cases hn : editName e = k
  · cases e with
    | typeText n s =>
      have hn' : n = k := hn
      subst hn'
      exact ⟨b, by simp [applyEdit, hw, hb]⟩
    | toggle n =>
      have hn' : n = k := hn
      subst hn'
      exact ⟨!b, by simp [applyEdit, hw, hb, dictLookup_insert_self]⟩
    | pick n i =>
      have hn' : n = k := hn
      subst hn'
      exact ⟨b, by simp [applyEdit, hw, hb]⟩
  · exact ⟨b, by rw [applyEdit_lookup_ne ws d e k hn, hb]⟩

theorem editsFold_boolCell (ws : List (String × Widget)) (edits : List Edit)
    (d : List (String × TkVar)) (k : String)
    (hw : dictLookup ws k = some Widget.checkbutton)
    (h : ∃ b, dictLookup d k = some (TkVar.booleanVar b)) :
    ∃ b, dictLookup (edits.foldl (applyEdit ws) d) k =
      some (TkVar.booleanVar b) := by
  induction edits generalizing d with
  | nil => exact h
  | cons e es ih => exact ih _ (applyEdit_boolCell ws d e k hw h)

theorem applyEdit_selCell (ws : List (String × Widget))
    (d : List (String × TkVar)) (e : Edit) (k : String)
    (vs : Option (List String)) (st : String) (seed : String)
    (hw : dictLookup ws k = some (Widget.combobox vs st))
    (h : ∃ s, dictLookup d k = some (TkVar.stringVar s) ∧
      (s ∈ vs.getD [] ∨ s = seed)) :
    ∃ s, dictLookup (applyEdit ws d e) k = some (TkVar.stringVar s) ∧
      (s ∈ vs.getD [] ∨ s = seed) := by
  obtain ⟨s0, hs0, hmem⟩ := h
  by_cases hn : editName e = k
  · cases e with
    | typeText n t =>
      have hn' : n = k := hn
      subst hn'
      exact ⟨s0, by simp [applyEdit, hw, hs0], hmem⟩
    | toggle n =>
      have hn' : n = k := hn
      subst hn'
      exact ⟨s0, by simp [applyEdit, hw, hs0], hmem⟩
    | pick n i =>
      have hn' : n = k := hn
      subst hn'
      cases vs with
      | none => exact ⟨s0, by simp [applyEdit, hw, hs0], hmem⟩
      | some opts =>
        cases ho : opts[i]? with
        | none => exact ⟨s0, by simp only [applyEdit, hw, hs0, ho], hmem⟩
        | some o =>
          refine ⟨o, ?_, Or.inl ?_⟩
          · simp only [applyEdit, hw, hs0, ho]
            exact dictLookup_insert_self d n (TkVar.stringVar o)
          · exact List.getElem?_mem ho
  · exact ⟨s0, by rw [applyEdit_lookup_ne ws d e k hn, hs0], hmem⟩

theorem editsFold_selCell (ws : List (String × Widget)) (edits : List Edit)
    (d : List (String × TkVar)) (k : String)
    (vs : Option (List String)) (st : String) (seed : String)
    (hw : dictLookup ws k = some (Widget.combobox vs st))
    (h : ∃ s, dictLookup d k = some (TkVar.stringVar s) ∧
      (s ∈ vs.getD [] ∨ s = seed)) :
    ∃ s, dictLookup (edits.foldl (applyEdit ws) d) k =
      some (TkVar.stringVar s) ∧ (s ∈ vs.getD [] ∨ s = seed) := by
  induction edits generalizing d with
  | nil => exact h
  | cons e es ih => exact ih _ (applyEdit_selCell ws d e k vs st seed hw h)

theorem dictLookup_ok_clicked (d : List (String × TkVar)) (k : String) :
    dictLookup (ok_clicked d) k = (dictLookup d k).map varGet :=
  dictLookup_map varGet d k

theorem dictKeys_ok_clicked (d : List (String × TkVar)) :
    dictKeys (ok_clicked d) = dictKeys d :=
  dictKeys_map varGet d

/-! Claim theorems. -/

/-- Claim C1: building the dialog retains exactly those field specs whose
name is a non-empty string; the result mapping produced on commit (OK
button or Return key) has as its key set exactly the names of the
retained fields, and so does the dictionary of rendered widgets; a spec
lacking a name appears in neither. -/
theorem c1_commit_keys (fields : List FieldSpec) (edits : List Edit)
    (a : UserAction) (result : List (String × PyVal))
    (ha : a = UserAction.okButton ∨ a = UserAction.enterKey)
    (h : runDialog fields edits a = Except.ok result) (k : String) :
    (k ∈ dictKeys result ↔ ∃ f ∈ fields, f.hasName = true ∧ f.name = some k) ∧
    (k ∈ dictKeys (buildWidgets fields) ↔
      ∃ f ∈ fields, f.hasName = true ∧ f.name = some k) := by
  have hchar : (∃ f ∈ retainFields fields, f.name.getD "" = k) ↔
      ∃ f ∈ fields, f.hasName = true ∧ f.name = some k := by
    constructor
    · rintro ⟨f, hf, hk⟩
      rw [retainFields, List.mem_filter] at hf
      obtain ⟨hmem, hname⟩ := hf
      refine ⟨f, hmem, hname, ?_⟩
      cases hn : f.name with
      | none => rw [FieldSpec.hasName, hn] at hname; simp at hname
      | some s =>
        rw [hn] at hk
        simp at hk
        rw [hk]
    · rintro ⟨f, hf, hname, hn⟩
      refine ⟨f, ?_, ?_⟩
      · rw [retainFields, List.mem_filter]
        exact ⟨hf, hname⟩
      · rw [hn]
        rfl
  unfold runDialog at h
  cases hb : buildData fields with
  | error e => rw [hb] at h; simp at h
  | ok d0 =>
    rw [hb] at h
    have hok : actionHandler a (edits.foldl (applyEdit (buildWidgets fields)) d0) =
        ok_clicked (edits.foldl (applyEdit (buildWidgets fields)) d0) := by
      rcases ha with h1 | h1 <;> rw [h1] <;> rfl
    have hres : ok_clicked (edits.foldl (applyEdit (buildWidgets fields)) d0) =
        result := by
      rw [← hok]
      simpa using h
    constructor
    · rw [← hres, dictKeys_ok_clicked, editsFold_keys,
        buildDataLoop_keys (retainFields fields) [] d0 hb k]
      simpa [dictKeys] using hchar
    · rw [buildWidgets, buildWidgetsLoop_keys (retainFields fields) [] k]
      simpa [dictKeys] using hchar

/-- Witness for claim C1 at a concrete input: one named field and one
nameless one. -/
theorem c1_commit_keys_witness :
    ("a" ∈ dictKeys [("a", PyVal.str "")] ↔
      ∃ f ∈ [mkField (some "a") none none none none,
        mkField none (some "Orphan") none none none],
        f.hasName = true ∧ f.name = some "a") ∧
    ("a" ∈ dictKeys (buildWidgets [mkField (some "a") none none none none,
        mkField none (some "Orphan") none none none]) ↔
      ∃ f ∈ [mkField (some "a") none none none none,
        mkField none (some "Orphan") none none none],
        f.hasName = true ∧ f.name = some "a") :=
  c1_commit_keys
    [mkField (some "a") none none none none,
      mkField none (some "Orphan") none none none]
    [] UserAction.okButton [("a", PyVal.str "")] (Or.inl rfl) rfl "a"

/-- Claim C2: cancelling, whether via the Cancel button or the Escape
key, yields the empty result mapping whatever edits were made. -/
theorem c2_cancel_empty (fields : List FieldSpec) (edits : List Edit)
    (a : UserAction) (result : List (String × PyVal))
    (ha : a = UserAction.cancelButton ∨ a = UserAction.escapeKey)
    (h : runDialog fields edits a = Except.ok result) : result = [] := by
  unfold runDialog at h
  cases hb : buildData fields with
  | error e => rw [hb] at h; simp at h
  | ok d0 =>
    rw [hb] at h
    rcases ha with h1 | h1 <;> subst h1 <;>
      simp only [actionHandler, cancel_clicked, Except.ok.injEq] at h <;>
      exact h.symm

/-- Witness for claim C2 at a concrete input: an edited text field,
discarded by the Escape key. -/
theorem c2_cancel_empty_witness : ([] : List (String × PyVal)) = [] :=
  c2_cancel_empty [mkField (some "a") none none (some (PyVal.str "x")) none]
    [Edit.typeText "a" "y"] UserAction.escapeKey [] (Or.inr rfl) rfl

/-- Claim C5: the requested theme is applied exactly when it is one of
the toolkit's known theme names, any other request leaves the current
theme in effect, and the computation is total, so no error is raised;
an absent theme keyword changes nothing. -/
theorem c5_theme (themeNames : List String) (current : String) (t : String) :
    applyTheme themeNames current (some t) =
      (if t ∈ themeNames then t else current) ∧
    applyTheme themeNames current none = current :=
  ⟨rfl, rfl⟩

/-- Claim C6: when the retained field list contains an earlier and a
later spec with the same name, the committed result maps that name to
the value seeded from the last spec bearing it. -/
theorem c6_duplicate_last_wins (fields fs₁ fs₂ : List FieldSpec)
    (f g : FieldSpec) (k : String) (result : List (String × PyVal))
    (hsplit : retainFields fields = fs₁ ++ f :: fs₂)
    (_hg : g ∈ fs₁) (_hgk : g.name.getD "" = k)
    (hk : f.name.getD "" = k)
    (hlast : ∀ fL ∈ fs₂, fL.name.getD "" ≠ k)
    (hr : runDialog fields [] UserAction.okButton = Except.ok result) :
    ∃ v, seedVar f = Except.ok v ∧ dictLookup result k = some (varGet v) := by
  unfold runDialog at hr
  cases hb : buildData fields with
  | error e => rw [hb] at hr; simp at hr
  | ok d0 =>
    rw [hb] at hr
    simp only [List.foldl_nil, actionHandler, Except.ok.injEq] at hr
    have hbl : buildDataLoop (fs₁ ++ f :: fs₂) [] = Except.ok d0 := by
      rw [← hsplit]
      exact hb
    obtain ⟨v, hv, hl⟩ := buildDataLoop_lookup_last fs₁ f fs₂ [] d0 k hk hlast hbl
    refine ⟨v, hv, ?_⟩
    rw [← hr, dictLookup_ok_clicked, hl]
    rfl

/-- Witness for claim C6 at a concrete input: two text fields named x;
the committed result holds the default of the second. -/
theorem c6_duplicate_last_wins_witness :
    ∃ v, seedVar (mkField (some "x") none none (some (PyVal.str "second")) none) =
      Except.ok v ∧
      dictLookup [("x", PyVal.str "second")] "x" = some (varGet v) :=
  c6_duplicate_last_wins
    [mkField (some "x") none none (some (PyVal.str "first")) none,
      mkField (some "x") none none (some (PyVal.str "second")) none]
    [mkField (some "x") none none (some (PyVal.str "first")) none] []
    (mkField (some "x") none none (some (PyVal.str "second")) none)
    (mkField (some "x") none none (some (PyVal.str "first")) none)
    "x" [("x", PyVal.str "second")] rfl (by simp) rfl rfl (by simp) rfl

/-- Claim C7: widget selection per kind for a retained field: text gives
a plain single-line editable entry, hidden_text an entry whose characters
are masked, checkbox a toggle bound to a boolean cell, select a read-only
dropdown restricted to the options and bound to a string cell; a field
whose type key is absent is treated as text. -/
theorem c7_widget_kinds (f : FieldSpec) (_h : f.hasName = true) :
    (f.type = some "text" → widgetFor f = Widget.entry none) ∧
    (f.type = some "hidden_text" → widgetFor f = Widget.entry (some "*")) ∧
    (f.type = some "checkbox" → widgetFor f = Widget.checkbutton ∧
      ∀ v, seedVar f = Except.ok v → ∃ b, v = TkVar.booleanVar b) ∧
    (f.type = some "select" →
      widgetFor f = Widget.combobox f.options "readonly" ∧
      ∀ v, seedVar f = Except.ok v → ∃ s, v = TkVar.stringVar s) ∧
    (f.type = none → widgetFor f = Widget.entry none) := by
  refine ⟨?_, ?_, ?_, ?_, ?_⟩ <;> intro ht
  · simp [widgetFor, ht]
  · simp [widgetFor, ht]
  · constructor
    · simp [widgetFor, ht]
    · intro v hv
      cases htc : tclGetBoolean (f.default.getD (PyVal.str "")) with
      | some b =>
        simp [seedVar, ht, variable_types, dictLookup, htc] at hv
        exact ⟨b, hv.symm⟩
      | none =>
        simp [seedVar, ht, variable_types, dictLookup, htc] at hv
  · constructor
    · simp [widgetFor, ht]
    · intro v hv
      simp [seedVar, ht, variable_types, dictLookup] at hv
      exact ⟨_, hv.symm⟩
  · simp [widgetFor, ht]

/-- Witness for claim C7 at a concrete input: a checkbox field with a
boolean default. -/
theorem c7_widget_kinds_witness :
    widgetFor (mkField (some "x") none (some "checkbox")
        (some (PyVal.bool true)) none) = Widget.checkbutton ∧
    ∃ b, TkVar.booleanVar true = TkVar.booleanVar b :=
  ⟨((c7_widget_kinds (mkField (some "x") none (some "checkbox")
      (some (PyVal.bool true)) none) rfl).2.2.1 rfl).1,
   ((c7_widget_kinds (mkField (some "x") none (some "checkbox")
      (some (PyVal.bool true)) none) rfl).2.2.1 rfl).2
     (TkVar.booleanVar true) rfl⟩

/-- Claim C10: a retained field whose type key is present but names none
of text, hidden_text, checkbox and select makes dialog construction raise
KeyError, while a field whose type key is absent is handled exactly like
one typed text, for the value cell and for the widget alike. -/
theorem c10_unknown_type (f : FieldSpec) (t : String) (hn : f.hasName = true)
    (ht : f.type = some t)
    (hbad : t ∉ ["text", "hidden_text", "checkbox", "select"]) :
    buildData [f] = Except.error PyError.KeyError ∧
    ∀ g : FieldSpec, g.type = none →
      seedVar g = seedVar (mkField g.name g.label (some "text") g.default g.options) ∧
      widgetFor g = widgetFor (mkField g.name g.label (some "text") g.default g.options) := by
  constructor
  · have hbad' : ¬t = "text" ∧ ¬t = "hidden_text" ∧ ¬t = "checkbox" ∧
        ¬t = "select" := by simpa using hbad
    obtain ⟨h1, h2, h3, h4⟩ := hbad'
    have hr : retainFields [f] = [f] := by simp [retainFields, hn]
    have hl : dictLookup variable_types t = none := by
      simp [variable_types, dictLookup, Ne.symm h1, Ne.symm h2, Ne.symm h3,
        Ne.symm h4]
    rw [buildData, hr]
    simp [buildDataLoop, seedVar, ht, hl]
  · intro g hg
    constructor <;> simp [seedVar, widgetFor, hg, mkField]

/-- Witness for claim C10 at a concrete input: type slider raises
KeyError; an absent type behaves as text. -/
theorem c10_unknown_type_witness :
    buildData [mkField (some "x") none (some "slider") none none] =
      Except.error PyError.KeyError ∧
    (seedVar (mkField (some "y") none none none none) =
      seedVar (mkField (some "y") none (some "text") none none) ∧
      widgetFor (mkField (some "y") none none none none) =
        widgetFor (mkField (some "y") none (some "text") none none)) :=
  ⟨(c10_unknown_type (mkField (some "x") none (some "slider") none none)
      "slider" rfl rfl (by decide)).1,
   (c10_unknown_type (mkField (some "x") none (some "slider") none none)
      "slider" rfl rfl (by decide)).2
     (mkField (some "y") none none none none) rfl⟩

/-- For a retained field list with pairwise distinct names, every retained
field splits the list with no later field sharing its name. -/
theorem retain_split_of_nodup (fields : List FieldSpec) (f : FieldSpec)
    (hnd : ((retainFields fields).map (fun x => x.name.getD "")).Nodup)
    (hmem : f ∈ retainFields fields) :
    ∃ fs₁ fs₂, retainFields fields = fs₁ ++ f :: fs₂ ∧
      ∀ g ∈ fs₂, g.name.getD "" ≠ f.name.getD "" := by
  obtain ⟨fs₁, fs₂, heq⟩ := List.append_of_mem hmem
  refine ⟨fs₁, fs₂, heq, ?_⟩
  intro g hg hgk
  rw [heq, List.map_append, List.map_cons] at hnd
  have hnotin : f.name.getD "" ∉ fs₂.map (fun x => x.name.getD "") :=
    (List.nodup_cons.mp (List.Nodup.of_append_right hnd)).1
  exact hnotin (hgk ▸ List.mem_map_of_mem _ hg)

/-- Committing with no edit returns, for each retained field of a
duplicate-free dialog, exactly the seeded value of its variable. -/
theorem runDialog_commit_lookup_noedits (fields : List FieldSpec)
    (f : FieldSpec) (result : List (String × PyVal))
    (hnd : ((retainFields fields).map (fun x => x.name.getD "")).Nodup)
    (hmem : f ∈ retainFields fields)
    (hr : runDialog fields [] UserAction.okButton = Except.ok result) :
    ∃ v, seedVar f = Except.ok v ∧
      dictLookup result (f.name.getD "") = some (varGet v) := by
  obtain ⟨fs₁, fs₂, heq, hne⟩ := retain_split_of_nodup fields f hnd hmem
  unfold runDialog at hr
  cases hb : buildData fields with
  | error e => rw [hb] at hr; simp at hr
  | ok d0 =>
    rw [hb] at hr
    simp only [List.foldl_nil, actionHandler, Except.ok.injEq] at hr
    have hbl : buildDataLoop (fs₁ ++ f :: fs₂) [] = Except.ok d0 := by
      rw [← heq]
      exact hb
    obtain ⟨v, hv, hl⟩ := buildDataLoop_lookup_last fs₁ f fs₂ [] d0
      (f.name.getD "") rfl hne hbl
    refine ⟨v, hv, ?_⟩
    rw [← hr, dictLookup_ok_clicked, hl]
    rfl

/-- Counterexample to claim C3 as stated: committing a select field whose
default key is absent returns the empty string for it, and the empty
string is not among its options. -/
theorem c3_commit_types_counterexample :
    runDialog [mkField (some "role") none (some "select") none
        (some ["A", "B"])] [] UserAction.okButton =
      Except.ok [("role", PyVal.str "")] ∧
    ¬ selectValuesInOptions
      [mkField (some "role") none (some "select") none (some ["A", "B"])]
      [("role", PyVal.str "")] := by
  refine ⟨rfl, ?_⟩
  intro hall
  have hmem : mkField (some "role") none (some "select") none (some ["A", "B"]) ∈
      retainFields [mkField (some "role") none (some "select") none
        (some ["A", "B"])] := by decide
  have hbad := hall _ hmem rfl "" rfl
  simp [mkField] at hbad

/-- Claim C3 (amended): for a committed dialog whose retained field names
are pairwise distinct, every checkbox field holds a boolean in the result,
and every select field holds a string that is either drawn from its
options or equal to its seeded default (the default value, or the empty
string when the default key is absent). -/
theorem c3_commit_types_amended (fields : List FieldSpec) (edits : List Edit)
    (a : UserAction) (result : List (String × PyVal))
    (hnd : ((retainFields fields).map (fun x => x.name.getD "")).Nodup)
    (ha : a = UserAction.okButton ∨ a = UserAction.enterKey)
    (hr : runDialog fields edits a = Except.ok result) :
    (∀ f ∈ retainFields fields, f.type = some "checkbox" →
      ∃ b, dictLookup result (f.name.getD "") = some (PyVal.bool b)) ∧
    (∀ f ∈ retainFields fields, f.type = some "select" →
      ∃ s, dictLookup result (f.name.getD "") = some (PyVal.str s) ∧
        (s ∈ f.options.getD [] ∨
          s = pyValToTclString (f.default.getD (PyVal.str "")))) := by
  unfold runDialog at hr
  cases hb : buildData fields with
  | error e => rw [hb] at hr; simp at hr
  | ok d0 =>
    rw [hb] at hr
    have hok : actionHandler a (edits.foldl (applyEdit (buildWidgets fields)) d0) =
        ok_clicked (edits.foldl (applyEdit (buildWidgets fields)) d0) := by
      rcases ha with h1 | h1 <;> rw [h1] <;> rfl
    have hres : ok_clicked (edits.foldl (applyEdit (buildWidgets fields)) d0) =
        result := by
      rw [← hok]
      simpa using hr
    have hlookups : ∀ f ∈ retainFields fields, ∃ v, seedVar f = Except.ok v ∧
        dictLookup d0 (f.name.getD "") = some v ∧
        dictLookup (buildWidgets fields) (f.name.getD "") =
          some (widgetFor f) := by
      intro f hf
      obtain ⟨fs₁, fs₂, heq, hne⟩ := retain_split_of_nodup fields f hnd hf
      have hbl : buildDataLoop (fs₁ ++ f :: fs₂) [] = Except.ok d0 := by
        rw [← heq]
        exact hb
      obtain ⟨v, hv, hl⟩ :=
        buildDataLoop_lookup_last fs₁ f fs₂ [] d0 (f.name.getD "") rfl hne hbl
      refine ⟨v, hv, hl, ?_⟩
      rw [buildWidgets, heq]
      exact buildWidgetsLoop_lookup_last fs₁ f fs₂ [] (f.name.getD "") rfl hne
    constructor
    · intro f hf ht
      obtain ⟨v, hv, hl, hw⟩ := hlookups f hf
      have hwc : widgetFor f = Widget.checkbutton := by simp [widgetFor, ht]
      rw [hwc] at hw
      have hbv : ∃ b, v = TkVar.booleanVar b := by
        cases htc : tclGetBoolean (f.default.getD (PyVal.str "")) with
        | some b =>
          simp [seedVar, ht, variable_types, dictLookup, htc] at hv
          exact ⟨b, hv.symm⟩
        | none => simp [seedVar, ht, variable_types, dictLookup, htc] at hv
      obtain ⟨b, hbv⟩ := hbv
      subst hbv
      obtain ⟨b2, hb2⟩ := editsFold_boolCell (buildWidgets fields) edits d0
        (f.name.getD "") hw ⟨b, hl⟩
      refine ⟨b2, ?_⟩
      rw [← hres, dictLookup_ok_clicked, hb2]
      rfl
    · intro f hf ht
      obtain ⟨v, hv, hl, hw⟩ := hlookups f hf
      have hwc : widgetFor f = Widget.combobox f.options "readonly" := by
        simp [widgetFor, ht]
      rw [hwc] at hw
      have hsv : v = TkVar.stringVar
          (pyValToTclString (f.default.getD (PyVal.str ""))) := by
        simp [seedVar, ht, variable_types, dictLookup] at hv
        exact hv.symm
      subst hsv
      obtain ⟨s, hs, hmem2⟩ := editsFold_selCell (buildWidgets fields) edits d0
        (f.name.getD "") f.options "readonly"
        (pyValToTclString (f.default.getD (PyVal.str ""))) hw
        ⟨_, hl, Or.inr rfl⟩
      refine ⟨s, ?_, hmem2⟩
      rw [← hres, dictLookup_ok_clicked, hs]
      rfl

/-- Witness for the amended claim C3 at a concrete input: a select field
with default A and options A and B, committed unedited. -/
theorem c3_commit_types_amended_witness :
    ∃ s, dictLookup [("role", PyVal.str "A")] "role" = some (PyVal.str s) ∧
      (s ∈ ["A", "B"] ∨ s = "A") :=
  (c3_commit_types_amended
    [mkField (some "role") none (some "select") (some (PyVal.str "A"))
      (some ["A", "B"])]
    [] UserAction.okButton [("role", PyVal.str "A")] (by decide) (Or.inl rfl)
    rfl).2
    (mkField (some "role") none (some "select") (some (PyVal.str "A"))
      (some ["A", "B"])) (by decide) rfl

/-- Counterexample to claim C4 as stated: a checkbox field whose default
key is absent does not get a cell seeded with false; construction raises
TclError instead, because the empty-string fallback is not a valid Tcl
boolean. -/
theorem c4_default_seeding_counterexample :
    buildData [mkField (some "c") none (some "checkbox") none none] =
      Except.error PyError.TclError ∧
    runDialog [mkField (some "c") none (some "checkbox") none none] []
      UserAction.okButton = Except.error PyError.TclError := by
  exact ⟨rfl, rfl⟩

/-- Claim C4 (amended): for every retained field of a committed
duplicate-free dialog, a string-kinded field (text, hidden_text, select,
or absent type) with no default key is seeded with the empty string and
one with a provided string default is seeded with exactly that default, a
checkbox field with a boolean default is seeded with that boolean, a
checkbox field with no default key makes construction raise TclError
instead of seeding false, and committing without any user edit returns
the seeded value of every retained field (so a provided default not
overridden by the user is the value returned on commit). -/
theorem c4_default_seeding_amended (fields : List FieldSpec) (f : FieldSpec)
    (result : List (String × PyVal))
    (hnd : ((retainFields fields).map (fun x => x.name.getD "")).Nodup)
    (hmem : f ∈ retainFields fields)
    (hr : runDialog fields [] UserAction.okButton = Except.ok result) :
    (f.default = none →
      (f.type = none ∨ f.type = some "text" ∨ f.type = some "hidden_text" ∨
        f.type = some "select") →
      seedVar f = Except.ok (TkVar.stringVar "")) ∧
    (∀ s, f.default = some (PyVal.str s) →
      (f.type = none ∨ f.type = some "text" ∨ f.type = some "hidden_text" ∨
        f.type = some "select") →
      seedVar f = Except.ok (TkVar.stringVar s)) ∧
    (∀ b, f.default = some (PyVal.bool b) → f.type = some "checkbox" →
      seedVar f = Except.ok (TkVar.booleanVar b)) ∧
    (∀ g : FieldSpec, g.type = some "checkbox" → g.default = none →
      seedVar g = Except.error PyError.TclError) ∧
    (∀ v, seedVar f = Except.ok v →
      dictLookup result (f.name.getD "") = some (varGet v)) := by
  refine ⟨?_, ?_, ?_, ?_, ?_⟩
  · intro hd ht
    rcases ht with h1 | h1 | h1 | h1 <;>
      simp [seedVar, h1, hd, variable_types, dictLookup, pyValToTclString]
  · intro s hd ht
    rcases ht with h1 | h1 | h1 | h1 <;>
      simp [seedVar, h1, hd, variable_types, dictLookup, pyValToTclString]
  · intro b hd ht
    simp [seedVar, ht, hd, variable_types, dictLookup, tclGetBoolean]
  · intro g ht hd
    simp [seedVar, ht, hd, variable_types, dictLookup, tclGetBoolean,
      tclGetBooleanStr]
  · intro v hv
    obtain ⟨v2, hv2, hl⟩ :=
      runDialog_commit_lookup_noedits fields f result hnd hmem hr
    rw [hv] at hv2
    have : v = v2 := by simpa using hv2
    rw [this]
    exact hl

/-- Witness for the amended claim C4 at a concrete input: a text field
with default bob is seeded with bob and commits bob unedited; a
defaultless checkbox raises TclError. -/
theorem c4_default_seeding_amended_witness :
    seedVar (mkField (some "u") none (some "text") (some (PyVal.str "bob"))
        none) = Except.ok (TkVar.stringVar "bob") ∧
    seedVar (mkField (some "c2") none (some "checkbox") none none) =
      Except.error PyError.TclError ∧
    dictLookup [("u", PyVal.str "bob")] "u" =
      some (varGet (TkVar.stringVar "bob")) :=
  ⟨(c4_default_seeding_amended
      [mkField (some "u") none (some "text") (some (PyVal.str "bob")) none]
      (mkField (some "u") none (some "text") (some (PyVal.str "bob")) none)
      [("u", PyVal.str "bob")] (by decide) (by decide) rfl).2.1
     "bob" rfl (Or.inr (Or.inl rfl)),
   (c4_default_seeding_amended
      [mkField (some "u") none (some "text") (some (PyVal.str "bob")) none]
      (mkField (some "u") none (some "text") (some (PyVal.str "bob")) none)
      [("u", PyVal.str "bob")] (by decide) (by decide) rfl).2.2.2.1
     (mkField (some "c2") none (some "checkbox") none none) rfl rfl,
   (c4_default_seeding_amended
      [mkField (some "u") none (some "text") (some (PyVal.str "bob")) none]
      (mkField (some "u") none (some "text") (some (PyVal.str "bob")) none)
      [("u", PyVal.str "bob")] (by decide) (by decide) rfl).2.2.2.2
     (TkVar.stringVar "bob") rfl⟩

/-- Popping `additional_fields` leaves every other key untouched. -/
theorem popAdditionalFields_lookup (kwargs : List (String × PyArg))
    (k : String) (hk : k ≠ "additional_fields") :
    dictLookup (popAdditionalFields kwargs).2 k = dictLookup kwargs k := by
  unfold popAdditionalFields
  cases haf : dictLookup kwargs "additional_fields" with
  | none => rfl
  | some arg =>
    cases arg with
    | str s => rfl
    | fieldList fs =>
      by_cases hemp : fs.isEmpty = true
      · simp [hemp]
      · simp only [hemp, if_false, Bool.false_eq_true]
        exact dictLookup_kwPop_ne kwargs "additional_fields" k hk

/-- Popping `default_username` leaves every other key untouched. -/
theorem popDefaultUsername_lookup (kw : List (String × PyArg))
    (k : String) (hk : k ≠ "default_username") :
    dictLookup (popDefaultUsername kw).2 k = dictLookup kw k := by
  unfold popDefaultUsername
  cases hdu : dictLookup kw "default_username" with
  | none => rfl
  | some arg =>
    cases arg with
    | fieldList fs => rfl
    | str s =>
      by_cases hs : s = ""
      · simp [hs]
      · simp [hs]
        exact dictLookup_kwPop_ne kw "default_username" k hk

/-- A Python call passing both an explicitly named keyword and a splatted
dictionary containing the same key raises `TypeError`. -/
theorem callKeywords_error (explicitKw rest : List (String × PyArg))
    (h : ∃ p ∈ explicitKw, (dictLookup rest p.1).isSome = true) :
    callKeywords explicitKw rest = Except.error PyError.TypeError := by
  have hcond : explicitKw.any (fun p => (dictLookup rest p.1).isSome) = true := by
    rw [List.any_eq_true]
    obtain ⟨p, hp, hs⟩ := h
    exact ⟨p, hp, hs⟩
  unfold callKeywords
  rw [if_pos hcond]

/-- Claim C8: loginbox prepends a username field of kind text and a
password field of kind hidden_text, in that order, to the caller-supplied
additional field list, then delegates to the synchronous runner autobox
and returns its result mapping. -/
theorem c8_loginbox_delegates (kwargs : List (String × PyArg))
    (fs : List FieldSpec)
    (haf : dictLookup kwargs "additional_fields" = some (PyArg.fieldList fs))
    (h1 : dictLookup kwargs "ok_label" = none)
    (h2 : dictLookup kwargs "title_string" = none)
    (h3 : dictLookup kwargs "fields" = none)
    (h4 : dictLookup kwargs "default_username" = none) :
    ∃ kw, loginboxCall kwargs = Except.ok kw ∧
      kwFields kw = usernameSpec "" :: passwordSpec :: fs ∧
      (usernameSpec "").type = some "text" ∧
      passwordSpec.type = some "hidden_text" ∧
      ∀ edits a, loginbox kwargs edits a = autobox kw edits a := by
  have hkw1ok : dictLookup (popAdditionalFields kwargs).2 "ok_label" = none := by
    rw [popAdditionalFields_lookup _ _ (by decide)]
    exact h1
  have hkw1du : dictLookup (popAdditionalFields kwargs).2 "default_username" =
      none := by
    rw [popAdditionalFields_lookup _ _ (by decide)]
    exact h4
  have hkw1ttl : dictLookup (popAdditionalFields kwargs).2 "title_string" =
      none := by
    rw [popAdditionalFields_lookup _ _ (by decide)]
    exact h2
  have hkw1flds : dictLookup (popAdditionalFields kwargs).2 "fields" = none := by
    rw [popAdditionalFields_lookup _ _ (by decide)]
    exact h3
  have hdu : popDefaultUsername (popAdditionalFields kwargs).2 =
      ("", (popAdditionalFields kwargs).2) := by
    unfold popDefaultUsername
    rw [hkw1du]
  have hP11 : (popAdditionalFields kwargs).1 = fs := by
    unfold popAdditionalFields
    rw [haf]
    show (if fs.isEmpty = true then (([] : List FieldSpec), kwargs)
        else (fs, kwPop kwargs "additional_fields")).1 = fs
    by_cases hemp : fs.isEmpty = true
    · rw [if_pos hemp]
      exact (List.isEmpty_iff.mp hemp).symm
    · rw [if_neg hemp]
  have hcall : loginboxCall kwargs = Except.ok
      (("fields", PyArg.fieldList ([usernameSpec "", passwordSpec] ++ fs)) ::
        ("ok_label", PyArg.str "Log In") ::
        ("title_string", PyArg.str
          (match dictLookup (popAdditionalFields kwargs).2 "title" with
            | some (PyArg.str s) => s
            | _ => "Log In")) :: (popAdditionalFields kwargs).2) := by
    unfold loginboxCall
    simp only [hdu, hkw1ok, hP11]
    simp [callKeywords, hkw1flds, hkw1ok, hkw1ttl]
  refine ⟨_, hcall, ?_, rfl, rfl, ?_⟩
  · simp [kwFields, dictLookup]
  · intro edits a
    simp only [loginbox, hcall]

/-- Witness for claim C8 at a concrete input: one additional field named
d; loginbox passes username, password and d to autobox. -/
theorem c8_loginbox_delegates_witness :
    loginboxCall [("additional_fields", PyArg.fieldList
        [mkField (some "d") none none none none])] =
      Except.ok [("fields", PyArg.fieldList
          [usernameSpec "", passwordSpec, mkField (some "d") none none none none]),
        ("ok_label", PyArg.str "Log In"), ("title_string", PyArg.str "Log In")] ∧
    kwFields [("fields", PyArg.fieldList
          [usernameSpec "", passwordSpec, mkField (some "d") none none none none]),
        ("ok_label", PyArg.str "Log In"), ("title_string", PyArg.str "Log In")] =
      usernameSpec "" :: passwordSpec :: [mkField (some "d") none none none none] ∧
    loginbox [("additional_fields", PyArg.fieldList
        [mkField (some "d") none none none none])] [] UserAction.okButton =
      autobox [("fields", PyArg.fieldList
          [usernameSpec "", passwordSpec, mkField (some "d") none none none none]),
        ("ok_label", PyArg.str "Log In"), ("title_string", PyArg.str "Log In")]
        [] UserAction.okButton := by
  obtain ⟨kw, hc, hf, _, _, hd⟩ := c8_loginbox_delegates
    [("additional_fields", PyArg.fieldList
      [mkField (some "d") none none none none])]
    [mkField (some "d") none none none none] rfl rfl rfl rfl rfl
  have hcomp : loginboxCall [("additional_fields", PyArg.fieldList
      [mkField (some "d") none none none none])] = Except.ok
      [("fields", PyArg.fieldList
          [usernameSpec "", passwordSpec, mkField (some "d") none none none none]),
        ("ok_label", PyArg.str "Log In"),
        ("title_string", PyArg.str "Log In")] := rfl
  rw [hc] at hcomp
  have hkw := Except.ok.inj hcomp
  subst hkw
  exact ⟨hc, hf, hd [] UserAction.okButton⟩

/-- Claim C9: calling loginbox with an ok_label or title_string keyword
argument raises TypeError: loginbox reads these keys without removing
them from its keyword dictionary and then passes both the explicitly
named keyword and the original dictionary on to autobox. -/
theorem c9_loginbox_typeerror (kwargs : List (String × PyArg))
    (edits : List Edit) (a : UserAction)
    (h : (dictLookup kwargs "ok_label").isSome = true ∨
      (dictLookup kwargs "title_string").isSome = true) :
    loginbox kwargs edits a = Except.error PyError.TypeError := by
  have hok : ∀ k, k ≠ "additional_fields" → k ≠ "default_username" →
      dictLookup (popDefaultUsername (popAdditionalFields kwargs).2).2 k =
        dictLookup kwargs k := by
    intro k hk1 hk2
    rw [popDefaultUsername_lookup _ _ hk2, popAdditionalFields_lookup _ _ hk1]
  have hcall : loginboxCall kwargs = Except.error PyError.TypeError := by
    unfold loginboxCall
    apply callKeywords_error
    rcases h with h | h
    · refine ⟨_, List.mem_cons_of_mem _ (List.mem_cons_self _ _), ?_⟩
      rw [← hok "ok_label" (by decide) (by decide)] at h
      exact h
    · refine ⟨_, List.mem_cons_of_mem _ (List.mem_cons_of_mem _
        (List.mem_cons_self _ _)), ?_⟩
      rw [← hok "title_string" (by decide) (by decide)] at h
      exact h
  simp only [loginbox, hcall]

/-- Witness for claim C9 at a concrete input: supplying ok_label to
loginbox raises TypeError. -/
theorem c9_loginbox_typeerror_witness :
    loginbox [("ok_label", PyArg.str "Go")] [] UserAction.okButton =
      Except.error PyError.TypeError :=
  c9_loginbox_typeerror [("ok_label", PyArg.str "Go")] [] UserAction.okButton
    (Or.inl rfl)
